import Mathlib

/-!
Verification of the PromptArchitect Pro client core (`src/App.tsx`):
the response normalizer (`toCopyReadyPrompt`, `followUpsFromResult`),
the usage meter (`readUsage`, `canGenerate`, `remaining`),
the history store (`readHistory`, `enforceHistoryLimit`, `saveToHistory`,
`toggleSaved`, `deleteHistoryItem`, `clearAllHistory`) and the generation
orchestration (`handleArchitect`) plus the plan-toggle handler.

Modelling conventions:
* JSON values are the inductive `Json` below; JS `undefined` (an absent
  property) is `Option.none` at access sites.
* JS numbers are modelled as `Int`; every number the claims exercise is
  integral.
* `localStorage` contents are passed explicitly: `none` models a missing
  key or a `JSON.parse` failure (both branches of the source return the
  same default), `some v` the parsed value.
* `todayKey()` (wall-clock local date) is an opaque `String` parameter.
* React state updates are modelled as pure state transformers on
  `AppState`; a `setX` call inside a handler becomes a record update.
-/

namespace PromptArchitect

/-- A JSON value, as produced by `JSON.parse` in the client.
Object fields are kept in order; the source never builds objects with
duplicate keys. -/
inductive Json where
  | null
  | bool (b : Bool)
  | num (n : Int)
  | str (s : String)
  | arr (elems : List Json)
  | obj (fields : List (String × Json))
deriving Repr

/-- JS truthiness of a JSON value (`if (x)`, `x || y`).
Empty arrays and objects are truthy in JS. -/
def truthy : Json → Bool
  | .null => false
  | .bool b => b
  | .num n => n != 0
  | .str s => s != ""
  | .arr _ => true
  | .obj _ => true

/-- Property access `data[k]` for the (non-numeric) keys the source reads:
defined on objects, `undefined` (`none`) on every other JSON value.
Matches `data?.[k]` as well, since the source only dereferences truthy
values directly. -/
def getField : Json → String → Option Json
  | .obj fields, k => fields.lookup k
  | _, _ => none

/-- JS nullish coalescing `a ?? b` on possibly-absent JSON values
(`none` = `undefined`). -/
def jor (a b : Option Json) : Option Json :=
  match a with
  | none => b
  | some .null => b
  | some v => some v

mutual
/-- JS `String(v)` coercion of a JSON value.  `String(array)` is
`Array.prototype.join(",")` with `null` rendered as the empty string;
`String(object)` is `"[object Object]"`. -/
def jsToString : Json → String
  | .null => "null"
  | .bool b => if b then "true" else "false"
  | .num n => toString n
  | .str s => s
  | .arr xs => String.intercalate "," (jsToStringElems xs)
  | .obj _ => "[object Object]"

/-- Elementwise rendering used by `Array.prototype.join`. -/
def jsToStringElems : List Json → List String
  | [] => []
  | x :: xs =>
    (match x with
     | .null => ""
     | v => jsToString v) :: jsToStringElems xs
end

/-- Lower-case hex digit, for `\u00XX` escapes. -/
def hexDigit (n : Nat) : Char :=
  if n < 10 then Char.ofNat ('0'.toNat + n) else Char.ofNat ('a'.toNat + (n - 10))

/-- JSON string escaping of one character, as in `JSON.stringify`. -/
def escapeChar (c : Char) : String :=
  if c = '"' then "\\\""
  else if c = '\\' then "\\\\"
  else if c = '\n' then "\\n"
  else if c = '\t' then "\\t"
  else if c = '\r' then "\\r"
  else if c = '\x08' then "\\b"
  else if c = '\x0c' then "\\f"
  else if c.toNat < 32 then
    "\\u00" ++ String.singleton (hexDigit (c.toNat / 16)) ++ String.singleton (hexDigit (c.toNat % 16))
  else String.singleton c

/-- A JSON string literal: quotes around the escaped content. -/
def quoteStr (s : String) : String :=
  "\"" ++ String.join (s.data.map escapeChar) ++ "\""

/-- `n` spaces. -/
def spaces (n : Nat) : String :=
  String.mk (List.replicate n ' ')

mutual
/-- `JSON.stringify(v, null, 2)`: pretty printing with two-space
indentation; `ind` is the indentation level of the value's closing
bracket. -/
def stringify : Json → Nat → String
  | .null, _ => "null"
  | .bool b, _ => if b then "true" else "false"
  | .num n, _ => toString n
  | .str s, _ => quoteStr s
  | .arr [], _ => "[]"
  | .arr (x :: xs), ind =>
      "[\n" ++ String.intercalate ",\n" (stringifyItems (x :: xs) (ind + 2))
        ++ "\n" ++ spaces ind ++ "]"
  | .obj [], _ => "{}"
  | .obj (f :: fs), ind =>
      "\x7b\n" ++ String.intercalate ",\n" (stringifyFields (f :: fs) (ind + 2))
        ++ "\n" ++ spaces ind ++ "\x7d"

/-- Array items of `JSON.stringify`, each on its own indented line. -/
def stringifyItems : List Json → Nat → List String
  | [], _ => []
  | x :: xs, ind => (spaces ind ++ stringify x ind) :: stringifyItems xs ind

/-- Object fields of `JSON.stringify`, each on its own indented line. -/
def stringifyFields : List (String × Json) → Nat → List String
  | [], _ => []
  | (k, v) :: fs, ind =>
      (spaces ind ++ quoteStr k ++ ": " ++ stringify v ind) :: stringifyFields fs ind
end

/-- A character JS `String.prototype.trim` removes (the claims only
exercise ASCII whitespace). -/
def isJsSpace (c : Char) : Bool :=
  c = ' ' || c = '\t' || c = '\n' || c = '\r' || c = '\x0b' || c = '\x0c'

/-- JS `s.trim()`: drop leading and trailing whitespace, modelled over the
character list. -/
def jsTrim (s : String) : String :=
  String.mk (((s.data.dropWhile isJsSpace).reverse.dropWhile isJsSpace).reverse)

/-- The `pick` closure of `toCopyReadyPrompt`: probe keys in order, return
the first trimmed non-empty string value, else `""`. -/
def pick (data : Json) : List String → String
  | [] => ""
  | k :: ks =>
    match getField data k with
    | some (.str s) => if jsTrim s != "" then jsTrim s else pick data ks
    | _ => pick data ks

/-- Rendering of a possibly-list-valued section body: arrays become one
bulleted line per element, scalars one plain line. -/
def bulletLines (v : Json) : List String :=
  match v with
  | .arr cs => cs.map (fun c => "- " ++ jsToString c)
  | _ => [jsToString v]

/-- The structured-field reconstruction of `toCopyReadyPrompt` (lines
119-167 of `App.tsx`): probe key variants per field, assemble labelled
sections, and fall back to `JSON.stringify(data, null, 2)` when the
assembled text trims to empty. -/
def assemblePrompt (data : Json) : String :=
  let role := pick data ["AI Role", "role", "ai_role"]
  let context := pick data ["Context", "context"]
  let task := pick data ["Task", "task"]
  let constraints := jor (getField data "Constraints") (getField data "constraints")
  let outputFormat :=
    jor (jor (getField data "Output Format") (getField data "output_format"))
      (getField data "outputFormat")
  let followUps :=
    jor (jor (getField data "Follow-up Questions") (getField data "follow_up_questions"))
      (getField data "followUps")
  let lines : List String :=
    (if role != "" then ["AI Role:\n" ++ role] else [])
    ++ (if context != "" then ["\nContext:\n" ++ context] else [])
    ++ (if task != "" then ["\nTask:\n" ++ task] else [])
    ++ (match constraints with
        | some v => if truthy v then "\nConstraints:" :: bulletLines v else []
        | none => [])
    ++ (match outputFormat with
        | some v => if truthy v then "\nOutput Format:" :: bulletLines v else []
        | none => [])
    ++ (match followUps with
        | some v => if truthy v then "\nFollow-up Questions (max 2):" :: bulletLines v else []
        | none => [])
  let joined := jsTrim (String.intercalate "\n" lines)
  if joined != "" then joined else stringify data 0

/-- `toCopyReadyPrompt` (`App.tsx` lines 114-168): falsy input short-
circuits; a non-empty-after-trim string `prompt` field wins verbatim;
otherwise the structured reconstruction runs. -/
def toCopyReadyPrompt (data : Json) : String :=
  if truthy data = false then "No prompt generated."
  else
    match getField data "prompt" with
    | some (.str s) => if jsTrim s != "" then jsTrim s else assemblePrompt data
    | _ => assemblePrompt data

/-- `followUpsFromResult` (`App.tsx` lines 269-272): probe
`follow_up_questions`, `"Follow-up Questions"`, `followUps`; keep only the
string elements of an array value, else return `[]`. -/
def followUpsFromResult (r : Json) : List String :=
  match jor (jor (getField r "follow_up_questions") (getField r "Follow-up Questions"))
      (getField r "followUps") with
  | some (.arr v) =>
      v.filterMap (fun q => match q with | .str s => some s | _ => none)
  | _ => []

/-- The plan tier (`type Plan = "free" | "pro"`). -/
inductive Plan where
  | free
  | pro
deriving DecidableEq, Repr

/-- `FREE_DAILY_LIMIT = 3`. -/
def FREE_DAILY_LIMIT : Int := 3

/-- `FREE_HISTORY_LIMIT = 10`. -/
def FREE_HISTORY_LIMIT : Nat := 10

/-- JS strict equality of a JSON value against a string
(`parsed.date !== todayKey()`). -/
def jsonEqString (v : Json) (s : String) : Bool :=
  match v with
  | .str t => t == s
  | _ => false

/-- `readUsage` (`App.tsx` lines 51-62).  `raw = none` models a missing
`pap_usage` key or a `JSON.parse` failure (both return 0); `today` is the
current `todayKey()`.  A falsy `date`, a non-number `count`, or a stored
date differing from today all yield 0; otherwise `max 0 count`. -/
def readUsage (raw : Option Json) (today : String) : Int :=
  match raw with
  | none => 0
  | some parsed =>
    match getField parsed "date", getField parsed "count" with
    | some d, some (.num c) =>
        if !(truthy d) then 0
        else if !(jsonEqString d today) then 0
        else max 0 c
    | _, _ => 0

/-- `canGenerate` (`App.tsx` line 260). -/
def canGenerate (plan : Plan) (dailyCount : Int) : Bool :=
  match plan with
  | .pro => true
  | .free => dailyCount < FREE_DAILY_LIMIT

/-- `remaining` (`App.tsx` lines 257-258); `none` models the JS
`Infinity` of the pro plan. -/
def remaining (plan : Plan) (dailyCount : Int) : Option Int :=
  match plan with
  | .pro => none
  | .free => some (max 0 (FREE_DAILY_LIMIT - dailyCount))

/-- `readHistory` (`App.tsx` lines 72-82).  `raw = none` models a missing
`pap_history` key or a `JSON.parse` failure; a non-array parses to `[]`;
an array is passed through `filter(Boolean)`, which drops exactly the
falsy elements. -/
def readHistory (raw : Option Json) : List Json :=
  match raw with
  | some (.arr xs) => xs.filter truthy
  | _ => []

/-- A history entry (`type HistoryItem`). -/
structure HistoryItem where
  id : String
  createdAt : Int
  preset : Option String
  input : String
  output : String
  followUps : List String
  saved : Bool
deriving DecidableEq, Repr

/-- `items.sort((a, b) => b.createdAt - a.createdAt)`: the ES2019 stable
sort, descending by `createdAt`. -/
def sortDesc (items : List HistoryItem) : List HistoryItem :=
  items.mergeSort (fun a b => decide (b.createdAt ≤ a.createdAt))

/-- One `byId.set(item.id, item)` step of the `Map`-based dedup in
`enforceHistoryLimit`: an existing id keeps its position but takes the new
value, a fresh id is appended. -/
def insertById (acc : List HistoryItem) (x : HistoryItem) : List HistoryItem :=
  if acc.any (fun y => y.id == x.id)
  then acc.map (fun y => if y.id == x.id then x else y)
  else acc ++ [x]

/-- The `Map`-insertion loop of `enforceHistoryLimit`
(`Array.from(byId.values())` after `byId.set` in list order). -/
def dedupById (items : List HistoryItem) : List HistoryItem :=
  items.foldl insertById []

/-- `enforceHistoryLimit` (`App.tsx` lines 288-301), with the captured
`plan` made an explicit argument: pro keeps everything; free keeps all
saved entries plus the first `FREE_HISTORY_LIMIT` non-saved entries of the
input order, dedups by id, and re-sorts descending by `createdAt`. -/
def enforceHistoryLimit (plan : Plan) (items : List HistoryItem) : List HistoryItem :=
  if plan = .pro then items
  else
    let saved := items.filter (fun x => x.saved)
    let nonSaved := items.filter (fun x => !x.saved)
    let trimmedNonSaved := nonSaved.take FREE_HISTORY_LIMIT
    let merged := saved ++ trimmedNonSaved
    sortDesc (dedupById merged)

/-- The history update of `saveToHistory` (`App.tsx` lines 303-320):
prepend the new item, sort descending, enforce retention. -/
def saveToHistory (plan : Plan) (history : List HistoryItem) (item : HistoryItem) :
    List HistoryItem :=
  enforceHistoryLimit plan (sortDesc (item :: history))

/-- `toggleSaved` (`App.tsx` lines 322-327): flip `saved` on the matching
id, sort descending, enforce retention. -/
def toggleSaved (plan : Plan) (history : List HistoryItem) (tid : String) :
    List HistoryItem :=
  let next := history.map (fun h => if h.id == tid then { h with saved := !h.saved } else h)
  enforceHistoryLimit plan (sortDesc next)

/-- `deleteHistoryItem` (`App.tsx` lines 329-334): remove by id; note that
no retention pass runs here. -/
def deleteHistoryItem (history : List HistoryItem) (did : String) : List HistoryItem :=
  history.filter (fun h => h.id != did)

/-- `clearAllHistory` (`App.tsx` lines 336-342): keep the saved entries,
sort descending, enforce retention. -/
def clearAllHistory (plan : Plan) (history : List HistoryItem) : List HistoryItem :=
  enforceHistoryLimit plan (sortDesc (history.filter (fun h => h.saved)))

/-- The value stored by `setResult` on success:
`{ ...(data || {}), prompt: promptText, follow_up_questions: fups }`,
kept as its three ingredients. -/
structure GenResult where
  data : Json
  prompt : String
  follow_up_questions : List String
deriving Repr

/-- Outcome of the `fetch` in `handleArchitect`: `thrown msg` models the
fetch promise rejecting with an error whose `.message` coerces to `msg`
(`""` when absent); `response ok status body` a settled response, with
`body = none` when `res.json()` rejects (the source then uses `null`). -/
inductive FetchResult where
  | thrown (msg : String)
  | response (ok : Bool) (status : Nat) (body : Option Json)

/-- The component state touched by the handlers under verification. -/
structure AppState where
  plan : Plan
  dailyCount : Int
  idea : String
  preset : Option String
  history : List HistoryItem
  error : String
  result : Option GenResult
  showUpgrade : Bool

/-- `handleArchitect` (`App.tsx` lines 366-417) as a state transformer:
clear error/result; reject empty trimmed input; reject when the quota is
exhausted (showing the upgrade banner); otherwise consume the fetch
outcome — a thrown error or a non-ok response only sets `error`, a
successful response bumps the usage count (free plan only), normalizes the
payload, stores the result and appends to history.  `newId`/`now` stand
for `uid()`/`Date.now()`; the transient `loading` flag nets to `false` and
is omitted. -/
def handleArchitect (s : AppState) (fetch : FetchResult) (newId : String) (now : Int) :
    AppState :=
  let s0 := { s with error := "", result := none }
  let trimmed := jsTrim s.idea
  if trimmed = "" then { s0 with error := "Type something first." }
  else if !(canGenerate s.plan s.dailyCount) then
    { s0 with
      showUpgrade := true,
      error := "Daily limit reached. Free plan allows 3 prompts/day. Upgrade for unlimited." }
  else
    match fetch with
    | .thrown msg => { s0 with error := if msg = "" then "Something went wrong." else msg }
    | .response ok status body =>
      let data : Json := match body with | none => .null | some j => j
      if !ok then
        { s0 with error :=
            match getField data "error" with
            | some v =>
                if truthy v then jsToString v
                else "Request failed (" ++ toString status ++ ")"
            | none => "Request failed (" ++ toString status ++ ")" }
      else
        let promptText := toCopyReadyPrompt data
        let fups := followUpsFromResult data
        let item : HistoryItem :=
          { id := newId, createdAt := now, preset := s.preset, input := trimmed,
            output := promptText, followUps := fups, saved := false }
        { s0 with
          dailyCount := if s.plan = .pro then s.dailyCount else s.dailyCount + 1,
          result := some { data := data, prompt := promptText, follow_up_questions := fups },
          history := saveToHistory s.plan s.history item }

/-- The plan-toggle button's `onClick` (`App.tsx` lines 524-534): flip the
plan, hide the upgrade banner, clear the error, and re-apply retention.
The `enforceHistoryLimit` call closes over the render's `plan` constant,
so retention runs under the pre-toggle plan. -/
def planToggle (s : AppState) : AppState :=
  { s with
    plan := match s.plan with | .free => .pro | .pro => .free,
    showUpgrade := false,
    error := "",
    history := enforceHistoryLimit s.plan s.history }

/-- A minimal non-saved history entry, for concrete witnesses. -/
def sampleItem (i : String) (t : Int) : HistoryItem :=
  { id := i, createdAt := t, preset := none, input := "", output := "", followUps := [],
    saved := false }

/-- Fifteen non-saved entries, newest first — the starting point of the
spec's retention scenario. -/
def sampleHistory : List HistoryItem :=
  [sampleItem "a1" 15, sampleItem "a2" 14, sampleItem "a3" 13, sampleItem "a4" 12,
   sampleItem "a5" 11, sampleItem "a6" 10, sampleItem "a7" 9, sampleItem "a8" 8,
   sampleItem "a9" 7, sampleItem "a10" 6, sampleItem "a11" 5, sampleItem "a12" 4,
   sampleItem "a13" 3, sampleItem "a14" 2, sampleItem "a15" 1]

/-- A fresh-session demo state on the free plan. -/
def demoState : AppState :=
  { plan := .free, dailyCount := 0, idea := "  build me a plan  ", preset := none,
    history := [], error := "", result := none, showUpgrade := false }

end PromptArchitect

namespace PromptArchitect

/-! ### Non-emptiness of rendered strings -/

theorem toDigitsCore_ne_nil (b fuel : Nat) :
    ∀ (n : Nat) (ds : List Char), ds ≠ [] → Nat.toDigitsCore b fuel n ds ≠ [] := by
  induction fuel with
  | zero => intro n ds h; simpa [Nat.toDigitsCore] using h
  | succ f ih =>
    intro n ds h
    simp only [Nat.toDigitsCore]
    split
    · simp
    · exact ih _ _ (by simp)

theorem toDigits_ne_nil (b n : Nat) : Nat.toDigits b n ≠ [] := by
  simp only [Nat.toDigits, Nat.toDigitsCore]
  split
  · simp
  · exact toDigitsCore_ne_nil b n _ _ (by simp)

theorem eq_empty_of_length_zero {s : String} (h : s.length = 0) : s = "" := by
  cases s with
  | mk data =>
    cases data with
    | nil => rfl
    | cons c cs => simp [String.length] at h

theorem append_left_ne_empty {s : String} (t : String) (h : s ≠ "") : s ++ t ≠ "" := by
  intro he
  apply h
  apply eq_empty_of_length_zero
  have hl := congrArg String.length he
  rw [String.length_append] at hl
  have h0 : ("" : String).length = 0 := rfl
  omega

theorem natRepr_ne_empty (n : Nat) : Nat.repr n ≠ "" := by
  intro he
  apply toDigits_ne_nil 10 n
  have hd := congrArg String.data he
  simpa [Nat.repr, List.asString, show ("" : String).data = [] from rfl] using hd

theorem intToString_ne_empty (n : Int) : toString n ≠ "" := by
  cases n with
  | ofNat m => exact natRepr_ne_empty m
  | negSucc m =>
    have he : toString (Int.negSucc m) = "-" ++ toString (m + 1) := rfl
    rw [he]
    exact append_left_ne_empty _ (by decide)

theorem quoteStr_ne_empty (s : String) : quoteStr s ≠ "" := by
  unfold quoteStr
  exact append_left_ne_empty _ (append_left_ne_empty _ (by decide))

theorem stringify_ne_empty (v : Json) (ind : Nat) : stringify v ind ≠ "" := by
  cases v with
  | null => exact (by decide : ("null" : String) ≠ "")
  | bool b =>
    cases b
    · exact (by decide : ("false" : String) ≠ "")
    · exact (by decide : ("true" : String) ≠ "")
  | num n => exact intToString_ne_empty n
  | str s => exact quoteStr_ne_empty s
  | arr xs =>
    cases xs with
    | nil => exact (by decide : ("[]" : String) ≠ "")
    | cons x t =>
      show "[\n" ++ String.intercalate ",\n" (stringifyItems (x :: t) (ind + 2))
          ++ "\n" ++ spaces ind ++ "]" ≠ ""
      exact append_left_ne_empty _
        (append_left_ne_empty _
          (append_left_ne_empty _ (append_left_ne_empty _ (by decide))))
  | obj fs =>
    cases fs with
    | nil => exact (by decide : ("{}" : String) ≠ "")
    | cons f t =>
      show "\x7b\n" ++ String.intercalate ",\n" (stringifyFields (f :: t) (ind + 2))
          ++ "\n" ++ spaces ind ++ "\x7d" ≠ ""
      exact append_left_ne_empty _
        (append_left_ne_empty _
          (append_left_ne_empty _ (append_left_ne_empty _ (by decide))))

theorem fallback_ne_empty {x y : String} (hy : y ≠ "") :
    (if (x != "") = true then x else y) ≠ "" := by
  split
  · next h => exact bne_iff_ne.mp h
  · exact hy

theorem assemblePrompt_ne_empty (data : Json) : assemblePrompt data ≠ "" := by
  unfold assemblePrompt
  exact fallback_ne_empty (stringify_ne_empty data 0)

/-- Claim C1: `toCopyReadyPrompt` is a total function over all JSON values
(including `null`, booleans, numbers, strings, arrays and objects) and
always returns a non-empty prompt string. -/
theorem C1_normalizer_total (data : Json) : toCopyReadyPrompt data ≠ "" := by
  unfold toCopyReadyPrompt
  split
  · exact (by decide : ("No prompt generated." : String) ≠ "")
  · split
    · exact fallback_ne_empty (assemblePrompt_ne_empty data)
    · exact assemblePrompt_ne_empty data

/-! ### Usage meter claims -/

/-- Claim C3, counterexample: a free-plan record with `count = 3 =
FREE_DAILY_LIMIT` but a stale stored date does NOT make the quota check
reject — `readUsage` treats a non-today date as zero usage, so
`canGenerate` returns `true`. -/
theorem C3_quota_counterexample :
    canGenerate .free
      (readUsage (some (Json.obj [("date", Json.str "2020-01-01"), ("count", Json.num 3)]))
        "2026-10-12") = true := by
  rfl

/-- Claim C3, amended: for a free-plan record `{date: d, count: 3}` with a
non-empty stored date, the quota check rejects exactly when the stored
date equals today; a stale date resets the effective count to zero and the
attempt is allowed. -/
theorem C3_quota_amended (today d : String) (hd : d ≠ "") :
    canGenerate .free
      (readUsage (some (Json.obj [("date", Json.str d), ("count", Json.num 3)])) today)
      = !(d == today) := by
  have ht : truthy (Json.str d) = true := by simpa [truthy, bne_iff_ne] using hd
  have hget :
      readUsage (some (Json.obj [("date", Json.str d), ("count", Json.num 3)])) today
        = if !(truthy (Json.str d)) then 0
          else if !(jsonEqString (Json.str d) today) then 0 else max 0 3 := rfl
  by_cases h : d = today
  · subst h
    have hjeq : jsonEqString (Json.str d) d = true := by simp [jsonEqString]
    rw [hget, ht, hjeq]
    simp [canGenerate, FREE_DAILY_LIMIT]
  · have hjeq : jsonEqString (Json.str d) today = false := by
      simp [jsonEqString, beq_eq_false_iff_ne]
      exact h
    rw [hget, ht, hjeq]
    have hbe : (d == today) = false := by
      simp [beq_eq_false_iff_ne]
      exact h
    simp [canGenerate, FREE_DAILY_LIMIT, hbe]

/-- Witness for C3 amended: with the stored date equal to today the check
rejects. -/
theorem C3_quota_amended_witness :
    canGenerate .free
      (readUsage (some (Json.obj [("date", Json.str "2026-10-12"), ("count", Json.num 3)]))
        "2026-10-12") = !("2026-10-12" == "2026-10-12") :=
  C3_quota_amended "2026-10-12" "2026-10-12" (by decide)

/-- Claim C7: for a free-plan record whose stored date differs from
today's, the remaining quota is the full `FREE_DAILY_LIMIT` regardless of
the stored count. -/
theorem C7_stale_date_full_quota (today d : String) (c : Int) (hne : d ≠ today) :
    remaining .free
      (readUsage (some (Json.obj [("date", Json.str d), ("count", Json.num c)])) today)
      = some FREE_DAILY_LIMIT := by
  have hjeq : jsonEqString (Json.str d) today = false := by
    simp [jsonEqString, beq_eq_false_iff_ne]
    exact hne
  have hget :
      readUsage (some (Json.obj [("date", Json.str d), ("count", Json.num c)])) today
        = if !(truthy (Json.str d)) then 0
          else if !(jsonEqString (Json.str d) today) then 0 else max 0 c := rfl
  rw [hget, hjeq]
  simp [remaining, FREE_DAILY_LIMIT]

/-- Witness for C7 at a concrete stale record with count 7. -/
theorem C7_stale_date_full_quota_witness :
    remaining .free
      (readUsage (some (Json.obj [("date", Json.str "2026-10-11"), ("count", Json.num 7)]))
        "2026-10-12") = some FREE_DAILY_LIMIT :=
  C7_stale_date_full_quota "2026-10-12" "2026-10-11" 7 (by decide)

/-! ### Normalizer claims -/

/-- Claim C5: whenever the payload's `prompt` field is a string with a
non-empty trim, `toCopyReadyPrompt` returns exactly that string trimmed
and ignores every structured field. -/
theorem C5_flat_prompt_wins (data : Json) (p : String)
    (hget : getField data "prompt" = some (Json.str p)) (hp : jsTrim p ≠ "") :
    toCopyReadyPrompt data = jsTrim p := by
  have ht : truthy data = true := by
    cases data <;> simp_all [getField, truthy]
  unfold toCopyReadyPrompt
  rw [ht, hget]
  simp [bne_iff_ne, hp]

/-- Witness for C5: a payload with both the flat `prompt` and populated
structured fields returns the trimmed prompt verbatim. -/
theorem C5_flat_prompt_wins_witness :
    toCopyReadyPrompt
      (Json.obj [("prompt", Json.str "  Role: X\nTask: Y "), ("role", Json.str "r"),
        ("task", Json.str "t"), ("followUpQuestions", Json.arr [Json.str "Q1?"])])
      = "Role: X\nTask: Y" := by
  have h := C5_flat_prompt_wins
    (Json.obj [("prompt", Json.str "  Role: X\nTask: Y "), ("role", Json.str "r"),
      ("task", Json.str "t"), ("followUpQuestions", Json.arr [Json.str "Q1?"])])
    "  Role: X\nTask: Y " rfl (by decide)
  simpa using h

/-- Claim C6 (code bug): the multi-field payload shape mandated by the
server schema (`api/transformPrompt.ts`, key `followUpQuestions`) is never
probed by `followUpsFromResult` — the extraction returns `[]` instead of
the questions. -/
theorem C6_followupquestions_key_dropped :
    followUpsFromResult
      (Json.obj [("role", Json.str "r"), ("task", Json.str "t"),
        ("followUpQuestions", Json.arr [Json.str "Q1?"])]) = [] := by
  rfl

/-! ### History persistence claim -/

/-- Claim C8, counterexample: a persisted history array holding a truthy
non-object element does NOT degrade to the empty list — `filter(Boolean)`
keeps the element. -/
theorem C8_corrupt_history_counterexample :
    readHistory (some (Json.arr [Json.num 1])) ≠ [] := by
  intro h
  have hl : (readHistory (some (Json.arr [Json.num 1]))).length = 1 := rfl
  rw [h] at hl
  simp at hl

/-- Claim C8, amended: reading history never raises; a missing or corrupt
persisted value and every non-array value degrade to the empty list, while
every array has exactly its falsy elements dropped — so truthy non-object
elements are retained. -/
theorem C8_corrupt_history_amended :
    readHistory none = []
    ∧ (∀ v : Json, (∀ xs, v ≠ Json.arr xs) → readHistory (some v) = [])
    ∧ (∀ xs : List Json, readHistory (some (Json.arr xs)) = xs.filter truthy) := by
  refine ⟨rfl, ?_, fun xs => rfl⟩
  intro v hv
  cases v with
  | arr xs => exact absurd rfl (hv xs)
  | null => rfl
  | bool b => rfl
  | num n => rfl
  | str s => rfl
  | obj fs => rfl

/-- Witness for C8 amended: a non-array string value reads as the empty
history, while an array mixing truthy non-objects and falsy elements keeps
exactly its truthy elements. -/
theorem C8_corrupt_history_amended_witness :
    readHistory (some (Json.str "oops")) = []
    ∧ readHistory (some (Json.arr [Json.num 1, Json.null, Json.str "a", Json.bool false]))
        = [Json.num 1, Json.str "a"] := by
  have h := C8_corrupt_history_amended
  refine ⟨h.2.1 (Json.str "oops") ?_, ?_⟩
  · intro xs hx
    exact Json.noConfusion hx
  · have h2 := h.2.2 [Json.num 1, Json.null, Json.str "a", Json.bool false]
    rw [h2]
    rfl

/-! ### Session controller claims -/

/-- Claim C9: an input whose trim is empty is rejected with the validation
message before any fetch outcome is consulted and without touching the
usage count, the history, or the upgrade banner — the final state is the
input state with only the error set (and the result cleared). -/
theorem C9_empty_input_rejected (s : AppState) (f : FetchResult) (newId : String)
    (now : Int) (h : jsTrim s.idea = "") :
    handleArchitect s f newId now
      = { s with error := "Type something first.", result := none } := by
  unfold handleArchitect
  simp [h]

/-- Witness for C9 at a whitespace-only input; the fetch argument is an
arbitrary thrown error and is ignored. -/
theorem C9_empty_input_rejected_witness :
    handleArchitect { demoState with idea := "   " } (.thrown "boom") "id1" 99
      = { { demoState with idea := "   " } with
          error := "Type something first.", result := none } :=
  C9_empty_input_rejected { demoState with idea := "   " } (.thrown "boom") "id1" 99 rfl

/-- Claim C4: a non-ok response whose body is `{"error": "quota exceeded"}`
surfaces exactly that message and leaves the usage count, the history and
the result untouched. -/
theorem C4_error_passthrough (s : AppState) (status : Nat) (newId : String) (now : Int)
    (hidea : jsTrim s.idea ≠ "") (hquota : canGenerate s.plan s.dailyCount = true) :
    (handleArchitect s
        (.response false status (some (Json.obj [("error", Json.str "quota exceeded")])))
        newId now).error = "quota exceeded"
    ∧ (handleArchitect s
        (.response false status (some (Json.obj [("error", Json.str "quota exceeded")])))
        newId now).dailyCount = s.dailyCount
    ∧ (handleArchitect s
        (.response false status (some (Json.obj [("error", Json.str "quota exceeded")])))
        newId now).history = s.history
    ∧ (handleArchitect s
        (.response false status (some (Json.obj [("error", Json.str "quota exceeded")])))
        newId now).result = none := by
  unfold handleArchitect
  simp [hidea, hquota, getField, truthy, jsToString]

/-- Witness for C4 at a concrete state and status 429. -/
theorem C4_error_passthrough_witness :
    (handleArchitect demoState
        (.response false 429 (some (Json.obj [("error", Json.str "quota exceeded")])))
        "id1" 99).error = "quota exceeded"
    ∧ (handleArchitect demoState
        (.response false 429 (some (Json.obj [("error", Json.str "quota exceeded")])))
        "id1" 99).dailyCount = demoState.dailyCount
    ∧ (handleArchitect demoState
        (.response false 429 (some (Json.obj [("error", Json.str "quota exceeded")])))
        "id1" 99).history = demoState.history
    ∧ (handleArchitect demoState
        (.response false 429 (some (Json.obj [("error", Json.str "quota exceeded")])))
        "id1" 99).result = none :=
  C4_error_passthrough demoState 429 "id1" 99 (by decide) rfl

/-! ### History retention machinery -/

open List

theorem sortDesc_perm (l : List HistoryItem) : sortDesc l ~ l :=
  List.mergeSort_perm l _

theorem sortDesc_sorted_bool (l : List HistoryItem) :
    (sortDesc l).Pairwise (fun a b => decide (b.createdAt ≤ a.createdAt) = true) := by
  unfold sortDesc
  apply List.sorted_mergeSort
  · intro a b c hab hbc
    simp only [decide_eq_true_eq] at hab hbc ⊢
    omega
  · intro a b
    simp only [Bool.or_eq_true, decide_eq_true_eq]
    omega

theorem sortDesc_sorted (l : List HistoryItem) :
    (sortDesc l).Pairwise (fun a b => b.createdAt ≤ a.createdAt) :=
  (sortDesc_sorted_bool l).imp (fun hab => by simpa using hab)

theorem sortDesc_eq_of_sorted {l : List HistoryItem}
    (h : l.Pairwise (fun a b => b.createdAt ≤ a.createdAt)) : sortDesc l = l := by
  unfold sortDesc
  apply List.mergeSort_of_sorted
  exact h.imp (fun hab => by simpa using hab)

theorem nodup_ids_of_perm {l l' : List HistoryItem} (hp : l ~ l')
    (h : (l.map (fun x => x.id)).Nodup) : (l'.map (fun x => x.id)).Nodup :=
  ((hp.map _).nodup_iff).mp h

theorem nodup_ids_sublist {l l' : List HistoryItem} (hs : l' <+ l)
    (h : (l.map (fun x => x.id)).Nodup) : (l'.map (fun x => x.id)).Nodup :=
  List.Nodup.sublist (hs.map _) h

theorem foldl_insertById : ∀ (l acc : List HistoryItem),
    ((acc ++ l).map (fun x => x.id)).Nodup →
    List.foldl insertById acc l = acc ++ l := by
  intro l
  induction l with
  | nil => intro acc h; simp
  | cons x xs ih =>
    intro acc h
    have hxmem : x.id ∉ acc.map (fun z => z.id) := by
      have h2 := h
      rw [List.map_append, List.nodup_append] at h2
      exact fun hmem => h2.2.2 hmem (by simp)
    have hx : (acc.any (fun y => y.id == x.id)) = false := by
      rw [List.any_eq_false]
      intro y hy hyx
      rw [beq_iff_eq] at hyx
      exact hxmem (hyx ▸ List.mem_map_of_mem _ hy)
    rw [List.foldl_cons,
      show insertById acc x = acc ++ [x] from by simp [insertById, hx],
      ih (acc ++ [x]) (by simpa using h)]
    simp

theorem dedupById_eq_self {l : List HistoryItem}
    (h : (l.map (fun x => x.id)).Nodup) : dedupById l = l := by
  have hf := foldl_insertById l [] (by simpa using h)
  simpa [dedupById] using hf

theorem enforce_free_eq (l : List HistoryItem)
    (hnd : (l.map (fun x => x.id)).Nodup) :
    enforceHistoryLimit .free l =
      sortDesc (l.filter (fun x => x.saved)
        ++ (l.filter (fun x => !x.saved)).take FREE_HISTORY_LIMIT) := by
  have hsub : (l.filter (fun x => x.saved)
        ++ (l.filter (fun x => !x.saved)).take FREE_HISTORY_LIMIT)
      <+ (l.filter (fun x => x.saved) ++ l.filter (fun x => !x.saved)) :=
    (List.take_sublist _ _).append_left _
  have hperm : (l.filter (fun x => x.saved) ++ l.filter (fun x => !x.saved)) ~ l :=
    List.filter_append_perm _ l
  have hmerged := nodup_ids_sublist hsub (nodup_ids_of_perm hperm.symm hnd)
  have h1 : enforceHistoryLimit .free l
      = sortDesc (dedupById (l.filter (fun x => x.saved)
          ++ (l.filter (fun x => !x.saved)).take FREE_HISTORY_LIMIT)) := rfl
  rw [h1, dedupById_eq_self hmerged]

theorem enforce_free_filter_perm (l : List HistoryItem)
    (hnd : (l.map (fun x => x.id)).Nodup) :
    ((enforceHistoryLimit .free l).filter (fun x => !x.saved))
      ~ (l.filter (fun x => !x.saved)).take FREE_HISTORY_LIMIT := by
  rw [enforce_free_eq l hnd]
  have hp2 := (sortDesc_perm (l.filter (fun x => x.saved)
      ++ (l.filter (fun x => !x.saved)).take FREE_HISTORY_LIMIT)).filter
      (fun x => !x.saved)
  rw [List.filter_append] at hp2
  have hnil : (l.filter (fun x => x.saved)).filter (fun x => !x.saved) = [] := by
    rw [List.filter_eq_nil_iff]
    intro a ha
    simp [(List.mem_filter.mp ha).2]
  have hself : ((l.filter (fun x => !x.saved)).take FREE_HISTORY_LIMIT).filter
        (fun x => !x.saved)
      = (l.filter (fun x => !x.saved)).take FREE_HISTORY_LIMIT := by
    rw [List.filter_eq_self]
    intro a ha
    exact (List.mem_filter.mp ((List.take_sublist _ _).subset ha)).2
  rw [hnil, hself] at hp2
  simpa using hp2

theorem enforce_free_nonsaved_length (l : List HistoryItem)
    (hnd : (l.map (fun x => x.id)).Nodup) :
    ((enforceHistoryLimit .free l).filter (fun x => !x.saved)).length
      = min FREE_HISTORY_LIMIT (l.filter (fun x => !x.saved)).length := by
  rw [(enforce_free_filter_perm l hnd).length_eq, List.length_take]

theorem take_domination {L : List HistoryItem} (n : Nat)
    (hs : L.Pairwise (fun a b => b.createdAt ≤ a.createdAt)) :
    ∀ x ∈ L.take n, ∀ y ∈ L, y ∉ L.take n → y.createdAt ≤ x.createdAt := by
  intro x hx y hy hyn
  have hsplit := List.take_append_drop n L
  have hp : (L.take n ++ L.drop n).Pairwise (fun a b => b.createdAt ≤ a.createdAt) := by
    rw [hsplit]; exact hs
  have hparts := List.pairwise_append.mp hp
  have hyd : y ∈ L.drop n := by
    have hy2 : y ∈ L.take n ++ L.drop n := by rw [hsplit]; exact hy
    rcases List.mem_append.mp hy2 with h1 | h2
    · exact absurd h1 hyn
    · exact h2
  exact hparts.2.2 x hx y hyd

theorem enforce_free_most_recent (l : List HistoryItem)
    (hnd : (l.map (fun x => x.id)).Nodup)
    (hsorted : l.Pairwise (fun a b => b.createdAt ≤ a.createdAt)) :
    ∀ x ∈ enforceHistoryLimit .free l, x.saved = false →
      ∀ y ∈ l, y.saved = false → y ∉ enforceHistoryLimit .free l →
        y.createdAt ≤ x.createdAt := by
  intro x hx hxs y hy hys hyn
  have hpf := enforce_free_filter_perm l hnd
  have hxA : x ∈ (l.filter (fun x => !x.saved)).take FREE_HISTORY_LIMIT := by
    apply hpf.mem_iff.mp
    exact List.mem_filter.mpr ⟨hx, by simp [hxs]⟩
  have hyF : y ∈ l.filter (fun x => !x.saved) :=
    List.mem_filter.mpr ⟨hy, by simp [hys]⟩
  have hyA : y ∉ (l.filter (fun x => !x.saved)).take FREE_HISTORY_LIMIT := by
    intro hmem
    exact hyn (List.mem_filter.mp (hpf.mem_iff.mpr hmem)).1
  exact take_domination _ (hsorted.filter _) x hxA y hyF hyA

theorem filter_nonsaved_of_all (l : List HistoryItem) (hns : ∀ x ∈ l, x.saved = false) :
    l.filter (fun x => !x.saved) = l := by
  rw [List.filter_eq_self]
  intro a ha
  simp [hns a ha]

theorem filter_saved_of_all (l : List HistoryItem) (hns : ∀ x ∈ l, x.saved = false) :
    l.filter (fun x => x.saved) = [] := by
  rw [List.filter_eq_nil_iff]
  intro a ha
  simp [hns a ha]

theorem saveToHistory_free_eq (h : List HistoryItem) (item : HistoryItem)
    (hnd : ((item :: h).map (fun x => x.id)).Nodup)
    (hns : ∀ x ∈ item :: h, x.saved = false) :
    saveToHistory .free h item = (sortDesc (item :: h)).take FREE_HISTORY_LIMIT := by
  have hperm : sortDesc (item :: h) ~ item :: h := sortDesc_perm _
  have hLnd := nodup_ids_of_perm hperm.symm hnd
  have hLns : ∀ z ∈ sortDesc (item :: h), z.saved = false :=
    fun z hz => hns z (hperm.mem_iff.mp hz)
  have h1 : saveToHistory .free h item
      = enforceHistoryLimit .free (sortDesc (item :: h)) := rfl
  rw [h1, enforce_free_eq _ hLnd, filter_saved_of_all _ hLns,
    filter_nonsaved_of_all _ hLns, List.nil_append]
  exact sortDesc_eq_of_sorted
    (List.Pairwise.sublist (List.take_sublist _ _) (sortDesc_sorted _))

theorem saveToHistory_free_count (h : List HistoryItem) (item : HistoryItem)
    (hnd : ((item :: h).map (fun x => x.id)).Nodup)
    (hns : ∀ x ∈ item :: h, x.saved = false)
    (hlen : h.length = 15) :
    ((saveToHistory .free h item).filter (fun x => !x.saved)).length
      = FREE_HISTORY_LIMIT := by
  have hperm : sortDesc (item :: h) ~ item :: h := sortDesc_perm _
  have hLnd := nodup_ids_of_perm hperm.symm hnd
  have hLns : ∀ z ∈ sortDesc (item :: h), z.saved = false :=
    fun z hz => hns z (hperm.mem_iff.mp hz)
  have h1 : saveToHistory .free h item
      = enforceHistoryLimit .free (sortDesc (item :: h)) := rfl
  rw [h1, enforce_free_nonsaved_length _ hLnd, filter_nonsaved_of_all _ hLns]
  have hlen2 : (sortDesc (item :: h)).length = 16 := by
    rw [hperm.length_eq]
    simp [hlen]
  rw [hlen2]
  decide

theorem saveToHistory_free_most_recent (h : List HistoryItem) (item : HistoryItem)
    (hnd : ((item :: h).map (fun x => x.id)).Nodup)
    (hns : ∀ x ∈ item :: h, x.saved = false) :
    ∀ x ∈ saveToHistory .free h item, ∀ y ∈ item :: h,
      y ∉ saveToHistory .free h item → y.createdAt ≤ x.createdAt := by
  intro x hx y hy hyn
  have hperm : sortDesc (item :: h) ~ item :: h := sortDesc_perm _
  have hLnd := nodup_ids_of_perm hperm.symm hnd
  have hLns : ∀ z ∈ sortDesc (item :: h), z.saved = false :=
    fun z hz => hns z (hperm.mem_iff.mp hz)
  have h1 : saveToHistory .free h item
      = enforceHistoryLimit .free (sortDesc (item :: h)) := rfl
  rw [h1] at hx hyn
  have hx2 : x ∈ sortDesc (item :: h) := by
    rw [enforce_free_eq _ hLnd] at hx
    have hx3 := (sortDesc_perm _).mem_iff.mp hx
    rcases List.mem_append.mp hx3 with hc | hc
    · exact (List.filter_sublist _).subset hc
    · exact (List.filter_sublist _).subset ((List.take_sublist _ _).subset hc)
  exact enforce_free_most_recent _ hLnd (sortDesc_sorted _) x hx (hLns x hx2)
    y (hperm.mem_iff.mpr hy) (hns y hy) hyn

theorem toggle_ids (h : List HistoryItem) (tid : String) :
    ((h.map (fun z => if z.id == tid then { z with saved := !z.saved } else z)).map
      (fun x => x.id)) = h.map (fun x => x.id) := by
  rw [List.map_map]
  apply List.map_congr_left
  intro a ha
  simp only [Function.comp_apply]
  split <;> rfl

theorem toggle_nonsaved_length (h : List HistoryItem) (tid : String)
    (hnd : (h.map (fun x => x.id)).Nodup)
    (hns : ∀ x ∈ h, x.saved = false) :
    h.length - 1 ≤
      ((h.map (fun z => if z.id == tid then { z with saved := !z.saved } else z)).filter
        (fun x => !x.saved)).length := by
  rw [List.filter_map, List.length_map]
  have hcong : h.filter ((fun x => !x.saved) ∘
        (fun z => if z.id == tid then { z with saved := !z.saved } else z))
      = h.filter (fun z => !(z.id == tid)) := by
    apply List.filter_congr
    intro z hz
    simp only [Function.comp_apply]
    cases hzt : (z.id == tid) <;> simp [hzt, hns z hz]
  rw [hcong]
  have hsplit := (List.filter_append_perm (fun z : HistoryItem => z.id == tid) h).length_eq
  rw [List.length_append] at hsplit
  have hle : (h.filter (fun z => z.id == tid)).length ≤ 1 := by
    rw [← List.countP_eq_length_filter]
    have h2 : List.countP (fun z : HistoryItem => z.id == tid) h
        = List.count tid (h.map (fun x => x.id)) := by
      show _ = List.countP (fun i => i == tid) (h.map (fun x => x.id))
      rw [List.countP_map]
      rfl
    have h3 := List.nodup_iff_count_le_one.mp hnd tid
    omega
  omega

theorem toggleSaved_free_count (h : List HistoryItem) (tid : String)
    (hnd : (h.map (fun x => x.id)).Nodup)
    (hns : ∀ x ∈ h, x.saved = false)
    (hlen : h.length = 15) :
    ((toggleSaved .free h tid).filter (fun x => !x.saved)).length
      = FREE_HISTORY_LIMIT := by
  have hNnd : ((h.map (fun z => if z.id == tid then { z with saved := !z.saved } else z)).map
      (fun x => x.id)).Nodup := by
    rw [toggle_ids]; exact hnd
  have hLnd := nodup_ids_of_perm (sortDesc_perm _).symm hNnd
  have h1 : toggleSaved .free h tid
      = enforceHistoryLimit .free (sortDesc
          (h.map (fun z => if z.id == tid then { z with saved := !z.saved } else z))) := rfl
  rw [h1, enforce_free_nonsaved_length _ hLnd]
  have hflen := ((sortDesc_perm
      (h.map (fun z => if z.id == tid then { z with saved := !z.saved } else z))).filter
      (fun x => !x.saved)).length_eq
  have h14 := toggle_nonsaved_length h tid hnd hns
  rw [hlen] at h14
  have hF : FREE_HISTORY_LIMIT = 10 := rfl
  rw [hF] at *
  omega

theorem toggleSaved_free_most_recent (h : List HistoryItem) (tid : String)
    (hnd : (h.map (fun x => x.id)).Nodup)
    (_hns : ∀ x ∈ h, x.saved = false) :
    ∀ x ∈ toggleSaved .free h tid, x.saved = false →
      ∀ y ∈ h.map (fun z => if z.id == tid then { z with saved := !z.saved } else z),
        y.saved = false → y ∉ toggleSaved .free h tid → y.createdAt ≤ x.createdAt := by
  intro x hx hxs y hy hys hyn
  have hNnd : ((h.map (fun z => if z.id == tid then { z with saved := !z.saved } else z)).map
      (fun x => x.id)).Nodup := by
    rw [toggle_ids]; exact hnd
  have hLnd := nodup_ids_of_perm (sortDesc_perm _).symm hNnd
  have h1 : toggleSaved .free h tid
      = enforceHistoryLimit .free (sortDesc
          (h.map (fun z => if z.id == tid then { z with saved := !z.saved } else z))) := rfl
  rw [h1] at hx hyn
  exact enforce_free_most_recent _ hLnd (sortDesc_sorted _) x hx hxs
    y ((sortDesc_perm _).mem_iff.mpr hy) hys hyn

theorem deleteHistoryItem_free_count (h : List HistoryItem) (did : String)
    (hnd : (h.map (fun x => x.id)).Nodup)
    (hns : ∀ x ∈ h, x.saved = false)
    (hlen : h.length = 15)
    (hdid : did ∈ h.map (fun x => x.id)) :
    ((deleteHistoryItem h did).filter (fun x => !x.saved)).length = 14 := by
  have h1 : deleteHistoryItem h did = h.filter (fun z => z.id != did) := rfl
  rw [h1, filter_nonsaved_of_all _
    (fun a ha => hns a ((List.filter_sublist _).subset ha))]
  have hbne : h.filter (fun z => z.id != did) = h.filter (fun z => !(z.id == did)) := by
    apply List.filter_congr
    intro z hz
    simp [bne]
  rw [hbne]
  have hsplit := (List.filter_append_perm (fun z : HistoryItem => z.id == did) h).length_eq
  rw [List.length_append, hlen] at hsplit
  have hcnt : (h.filter (fun z => z.id == did)).length = 1 := by
    rw [← List.countP_eq_length_filter]
    have h2 : List.countP (fun z : HistoryItem => z.id == did) h
        = List.count did (h.map (fun x => x.id)) := by
      show _ = List.countP (fun i => i == did) (h.map (fun x => x.id))
      rw [List.countP_map]
      rfl
    have hle := List.nodup_iff_count_le_one.mp hnd did
    have hpos : 0 < List.count did (h.map (fun x => x.id)) := List.count_pos_iff.mpr hdid
    omega
  omega

theorem clearAllHistory_free_eq (h : List HistoryItem)
    (hns : ∀ x ∈ h, x.saved = false) :
    clearAllHistory .free h = [] := by
  have hfs : h.filter (fun x => x.saved) = [] := filter_saved_of_all h hns
  show enforceHistoryLimit .free (sortDesc (h.filter (fun x => x.saved))) = []
  rw [hfs]
  simp [sortDesc, enforceHistoryLimit, dedupById]

/-- Claim C2, counterexample: starting from 15 non-saved entries and 0
saved under the free plan, deleting one entry leaves 14 non-saved entries,
not 10 — `deleteHistoryItem` runs no retention pass. -/
theorem C2_retention_counterexample :
    ((deleteHistoryItem sampleHistory "a1").filter (fun x => !x.saved)).length
        ≠ FREE_HISTORY_LIMIT
    ∧ sampleHistory.length = 15
    ∧ sampleHistory.filter (fun x => x.saved) = []
    ∧ "a1" ∈ sampleHistory.map (fun x => x.id) := by
  refine ⟨?_, by decide, by decide, by decide⟩
  decide

/-- Claim C2, amended: under plan = free, from a history of 15 non-saved
entries with distinct ids and 0 saved entries — after an append or a
`toggleSaved` exactly `FREE_HISTORY_LIMIT` (10) non-saved entries remain
and they are the most recent by `createdAt` (every surviving non-saved
entry's `createdAt` is at least that of every discarded one; for append
the result is exactly the first 10 of the descending stable sort); after a
delete of a present id no retention runs and 14 non-saved entries remain;
after `clearUnsaved` 0 entries remain. -/
theorem C2_retention_amended (h : List HistoryItem) (item : HistoryItem) (tid did : String)
    (hnd : (h.map (fun x => x.id)).Nodup)
    (hns : ∀ x ∈ h, x.saved = false)
    (hlen : h.length = 15)
    (hitem : item.saved = false)
    (hfresh : item.id ∉ h.map (fun x => x.id))
    (hdid : did ∈ h.map (fun x => x.id)) :
    saveToHistory .free h item = (sortDesc (item :: h)).take FREE_HISTORY_LIMIT
    ∧ ((saveToHistory .free h item).filter (fun x => !x.saved)).length = FREE_HISTORY_LIMIT
    ∧ (∀ x ∈ saveToHistory .free h item, ∀ y ∈ item :: h,
        y ∉ saveToHistory .free h item → y.createdAt ≤ x.createdAt)
    ∧ ((toggleSaved .free h tid).filter (fun x => !x.saved)).length = FREE_HISTORY_LIMIT
    ∧ (∀ x ∈ toggleSaved .free h tid, x.saved = false →
        ∀ y ∈ h.map (fun z => if z.id == tid then { z with saved := !z.saved } else z),
          y.saved = false → y ∉ toggleSaved .free h tid → y.createdAt ≤ x.createdAt)
    ∧ ((deleteHistoryItem h did).filter (fun x => !x.saved)).length = 14
    ∧ clearAllHistory .free h = [] := by
  have hnd' : ((item :: h).map (fun x => x.id)).Nodup := by
    rw [List.map_cons]
    exact List.nodup_cons.mpr ⟨hfresh, hnd⟩
  have hns' : ∀ x ∈ item :: h, x.saved = false := by
    intro x hx
    rcases List.mem_cons.mp hx with h1 | h2
    · rw [h1]; exact hitem
    · exact hns x h2
  exact ⟨saveToHistory_free_eq h item hnd' hns',
    saveToHistory_free_count h item hnd' hns' hlen,
    saveToHistory_free_most_recent h item hnd' hns',
    toggleSaved_free_count h tid hnd hns hlen,
    toggleSaved_free_most_recent h tid hnd hns,
    deleteHistoryItem_free_count h did hnd hns hlen hdid,
    clearAllHistory_free_eq h hns⟩

/-- Witness for C2 amended at the concrete fifteen-entry history: append
and toggle leave 10 non-saved entries, delete leaves 14, clear leaves
none. -/
theorem C2_retention_amended_witness :
    ((saveToHistory .free sampleHistory (sampleItem "a16" 16)).filter
        (fun x => !x.saved)).length = FREE_HISTORY_LIMIT
    ∧ ((toggleSaved .free sampleHistory "a3").filter (fun x => !x.saved)).length
        = FREE_HISTORY_LIMIT
    ∧ ((deleteHistoryItem sampleHistory "a1").filter (fun x => !x.saved)).length = 14
    ∧ clearAllHistory .free sampleHistory = [] := by
  have hC := C2_retention_amended sampleHistory (sampleItem "a16" 16) "a3" "a1"
    (by decide) (by decide) (by decide) (by decide) (by decide) (by decide)
  exact ⟨hC.2.1, hC.2.2.2.1, hC.2.2.2.2.2.1, hC.2.2.2.2.2.2⟩

/-- Claim C10: the plan-toggle handler applies retention under the
pre-toggle plan: the toggled history equals `enforceHistoryLimit` at the
old plan, so toggling from pro discards nothing, while toggling from free
(with a sorted, duplicate-free history, the app's invariant) trims the
non-saved entries one final time to the first `FREE_HISTORY_LIMIT` — the
most recent by `createdAt`. -/
theorem C10_plan_toggle_stale_plan (s : AppState)
    (hnd : (s.history.map (fun x => x.id)).Nodup)
    (hsorted : s.history.Pairwise (fun a b => b.createdAt ≤ a.createdAt)) :
    (planToggle s).history = enforceHistoryLimit s.plan s.history
    ∧ (planToggle s).plan = (match s.plan with | .free => .pro | .pro => .free)
    ∧ (s.plan = .pro → (planToggle s).history = s.history)
    ∧ (s.plan = .free →
        ((planToggle s).history.filter (fun x => !x.saved))
          ~ (s.history.filter (fun x => !x.saved)).take FREE_HISTORY_LIMIT)
    ∧ (s.plan = .free → ∀ x ∈ (planToggle s).history, x.saved = false →
        ∀ y ∈ s.history, y.saved = false → y ∉ (planToggle s).history →
          y.createdAt ≤ x.createdAt) := by
  refine ⟨rfl, rfl, ?_, ?_, ?_⟩
  · intro hp
    show enforceHistoryLimit s.plan s.history = s.history
    rw [hp]
    rfl
  · intro hp
    show ((enforceHistoryLimit s.plan s.history).filter (fun x => !x.saved)) ~ _
    rw [hp]
    exact enforce_free_filter_perm s.history hnd
  · intro hp x hx hxs y hy hys hyn
    have h1 : (planToggle s).history = enforceHistoryLimit s.plan s.history := rfl
    rw [h1, hp] at hx hyn
    exact enforce_free_most_recent s.history hnd hsorted x hx hxs y hy hys hyn

/-- Witness for C10 at the free plan with the fifteen-entry sorted
history: the surviving non-saved entries are a permutation of the first 10
of the stored list. -/
theorem C10_plan_toggle_stale_plan_witness :
    (((planToggle { demoState with history := sampleHistory }).history.filter
        (fun x => !x.saved)))
      ~ ((sampleHistory.filter (fun x => !x.saved)).take FREE_HISTORY_LIMIT) := by
  have hC := C10_plan_toggle_stale_plan { demoState with history := sampleHistory }
    (by decide) (by decide)
  exact hC.2.2.2.1 rfl

end PromptArchitect
